import Mathlib

/-!
Verification of the document-normalization and structured-response-recovery
subsystems of the course-checker repository.  JavaScript strings are modelled
as `List Char`; the fallible external capabilities (PDF rasterization, text
extraction, raster encoding) are modelled as explicit oracle parameters, and
the JavaScript built-ins used by the source (`trim`, `startsWith`, `endsWith`,
`includes`, `JSON.parse`) are modelled as total Lean functions.
-/

namespace CourseChecker

/-- Characters of a Lean string literal; used to transcribe the JavaScript
string literals of the source.  JavaScript strings are modelled as `List Char`. -/
def cs (s : String) : List Char := s.data

/-- The right-brace character (written via its code point). -/
def rbrace : Char := Char.ofNat 125

/-- The left-brace character (written via its code point). -/
def lbrace : Char := Char.ofNat 123

/-- The double-quote character. -/
def quoteC : Char := Char.ofNat 34

/-- The apostrophe character. -/
def apos : Char := Char.ofNat 39

/-- Whitespace recognized by the JavaScript built-in `String.prototype.trim`
and by the regular-expression class `\s`: tab, LF, VT, FF, CR, space, NBSP,
Ogham space mark, the Unicode space separators, line/paragraph separator,
narrow no-break space, mathematical space, ideographic space and the BOM. -/
def jsWs (c : Char) : Bool :=
  [9, 10, 11, 12, 13, 32, 160, 0x1680, 0x2000, 0x2001, 0x2002, 0x2003, 0x2004,
   0x2005, 0x2006, 0x2007, 0x2008, 0x2009, 0x200A, 0x2028, 0x2029, 0x202F,
   0x205F, 0x3000, 0xFEFF].contains c.toNat

/-- The JavaScript built-in `s.trim()`. -/
def jsTrim (s : List Char) : List Char := (s.dropWhile jsWs).rdropWhile jsWs

/-- The JavaScript built-in `s.startsWith(t)`. -/
def startsWithL (s t : List Char) : Bool := t.isPrefixOf s

/-- The JavaScript built-in `s.endsWith(t)`. -/
def endsWithL (s t : List Char) : Bool := t.isSuffixOf s

/-- The JavaScript built-in `s.includes(pat)`. -/
def containsL (s pat : List Char) : Bool :=
  match s with
  | [] => pat.isPrefixOf []
  | c :: r => pat.isPrefixOf (c :: r) || containsL r pat

/-- A plain code fence. -/
def fenceTag : List Char := cs "```"

/-- A code fence with the json language tag. -/
def fenceJsonTag : List Char := cs "```json"

/-- `replace(/\s*```$/, '')`: when the text ends in a code fence the regex
matches that trailing fence together with the whitespace run immediately
before it, and the match is removed; otherwise the regex does not match and
the text is unchanged. -/
def stripTrailingFence (s : List Char) : List Char :=
  if endsWithL s fenceTag then (s.take (s.length - 3)).rdropWhile jsWs else s

/-- The fence stripping of `analyzeContentWithStatement` (src/unnamed/part_001,
lines 322-326): if the trimmed text starts with a ```json fence, remove it
(the regex `/^```json\s*/` also consumes the whitespace after the tag) and a
trailing fence; otherwise, if it starts with a plain ``` fence, remove that
and a trailing fence; otherwise leave the text unchanged. -/
def stripFences (s : List Char) : List Char :=
  if startsWithL s fenceJsonTag then
    stripTrailingFence ((s.drop 7).dropWhile jsWs)
  else if startsWithL s fenceTag then
    stripTrailingFence ((s.drop 3).dropWhile jsWs)
  else s

/-- The literal `"summary":` searched for by the truncation repair. -/
def summaryKey : List Char := cs "\"summary\":"

/-- The literal `"recommendations":` searched for by the truncation repair. -/
def recommendationsKey : List Char := cs "\"recommendations\":"

/-- The closing-field suffix appended by the truncation repair. -/
def recRepairSuffix : List Char :=
  cs "\", \"recommendations\": \"Please review the detailed analysis above\"\x7d"

/-- Truncation detection and repair of `analyzeContentWithStatement`
(src/unnamed/part_001, lines 329-337): when the cleaned text ends neither in
a brace nor in quote-brace, append either the recommendations suffix (when a
summary field was started but no recommendations field appears) or a single
closing brace. -/
def repairTruncation (s : List Char) : List Char :=
  if !endsWithL s [rbrace] && !endsWithL s [quoteC, rbrace] then
    if containsL s summaryKey && !containsL s recommendationsKey then
      s ++ recRepairSuffix
    else if !endsWithL s [rbrace] then
      s ++ [rbrace]
    else s
  else s

/-- The full response cleaning of `analyzeContentWithStatement`
(src/unnamed/part_001, lines 320-337): trim, strip fences, repair truncation. -/
def cleanResponse (s : List Char) : List Char :=
  repairTruncation (stripFences (jsTrim s))

/-! ### Helper lemmas about the cleaner -/

theorem endsWithL_iff (s t : List Char) : endsWithL s t = true ↔ t <:+ s := by
  simp [endsWithL, List.isSuffixOf_iff_suffix]

theorem startsWithL_iff (s t : List Char) : startsWithL s t = true ↔ t <+: s := by
  simp [startsWithL, List.isPrefixOf_iff_prefix]

theorem endsWith_quote_brace_imp (s : List Char)
    (h : endsWithL s [quoteC, rbrace] = true) : endsWithL s [rbrace] = true := by
  rw [endsWithL_iff] at h ⊢
  exact List.IsSuffix.trans ⟨[quoteC], rfl⟩ h

theorem endsWithL_append_self (s t : List Char) :
    endsWithL (s ++ t) t = true := by
  rw [endsWithL_iff]
  exact List.suffix_append s t

theorem repair_cases (s : List Char) :
    repairTruncation s = s ∨ repairTruncation s = s ++ [rbrace] ∨
      repairTruncation s = s ++ recRepairSuffix := by
  unfold repairTruncation
  split
  · split
    · exact Or.inr (Or.inr rfl)
    · split
      · exact Or.inr (Or.inl rfl)
      · exact Or.inl rfl
  · exact Or.inl rfl

theorem rbrace_suffix_recRepairSuffix : [rbrace] <:+ recRepairSuffix :=
  ⟨recRepairSuffix.take (recRepairSuffix.length - 1), by decide⟩

theorem endsWith_of_not_flag (s : List Char)
    (hA : endsWithL s [rbrace] = false) : endsWithL s [quoteC, rbrace] = false := by
  cases hq : endsWithL s [quoteC, rbrace] with
  | true => rw [endsWith_quote_brace_imp s hq] at hA; cases hA
  | false => rfl

theorem repair_ends_brace (s : List Char) :
    endsWithL (repairTruncation s) [rbrace] = true := by
  cases hA : endsWithL s [rbrace] with
  | true =>
    unfold repairTruncation
    rw [hA]
    simpa using hA
  | false =>
    have hq := endsWith_of_not_flag s hA
    unfold repairTruncation
    rw [hA, hq]
    simp only [Bool.not_false, Bool.and_self, if_true]
    split
    · rw [endsWithL_iff]
      exact rbrace_suffix_recRepairSuffix.trans (List.suffix_append s recRepairSuffix)
    · exact endsWithL_append_self s [rbrace]

theorem repair_of_ends_brace (s : List Char)
    (h : endsWithL s [rbrace] = true) : repairTruncation s = s := by
  unfold repairTruncation
  rw [h]
  simp

/-- C10: the truncation-repair step only appends: the input is a prefix of the
output, and an input already ending in a closing brace is returned unchanged. -/
theorem truncation_repair_only_appends (s : List Char) :
    s <+: repairTruncation s ∧
      (endsWithL s [rbrace] = true → repairTruncation s = s) := by
  constructor
  · rcases repair_cases s with h | h | h
    · rw [h]
    · rw [h]; exact List.prefix_append s [rbrace]
    · rw [h]; exact List.prefix_append s recRepairSuffix
  · exact repair_of_ends_brace s

/-- Witness for C10 at the concrete already-closed input. -/
theorem truncation_repair_only_appends_witness :
    repairTruncation (cs "\x7b\"score\": 85\x7d") = cs "\x7b\"score\": 85\x7d" :=
  (truncation_repair_only_appends (cs "\x7b\"score\": 85\x7d")).2 (by decide)

/-- C7: the truncation flag of the cleaner holds exactly when the cleaned text
does not end with a closing brace (the quote-brace disjunct is redundant), and
when flagged the repair appends the recommendations suffix if the text contains
a summary key but no recommendations key, and a single closing brace otherwise. -/
theorem truncation_flag_and_repair (s : List Char) :
    ((!endsWithL s [rbrace] && !endsWithL s [quoteC, rbrace]) =
        !endsWithL s [rbrace]) ∧
      (endsWithL s [rbrace] = false →
        repairTruncation s =
          if containsL s summaryKey && !containsL s recommendationsKey then
            s ++ recRepairSuffix
          else s ++ [rbrace]) := by
  constructor
  · cases hb : endsWithL s [rbrace] with
    | true => simp
    | false => simp [endsWith_of_not_flag s hb]
  · intro hb
    have hq := endsWith_of_not_flag s hb
    unfold repairTruncation
    rw [hb, hq]
    simp only [Bool.not_false, Bool.and_self, if_true]

/-- Witness for C7 at a concrete truncated input. -/
theorem truncation_flag_and_repair_witness :
    repairTruncation (cs "\x7b\"overall_score\": 4") =
      if containsL (cs "\x7b\"overall_score\": 4") summaryKey &&
          !containsL (cs "\x7b\"overall_score\": 4") recommendationsKey then
        cs "\x7b\"overall_score\": 4" ++ recRepairSuffix
      else cs "\x7b\"overall_score\": 4" ++ [rbrace] :=
  (truncation_flag_and_repair (cs "\x7b\"overall_score\": 4")).2 (by decide)

/-! ### Idempotence of the cleaner on fence-free input (C8) -/

/-- The backtick character (written via its code point). -/
def backtickC : Char := Char.ofNat 96

theorem fenceTag_eq : fenceTag = [backtickC, backtickC, backtickC] := by decide

theorem recRepairSuffix_cons :
    recRepairSuffix =
      quoteC ::
        cs ", \"recommendations\": \"Please review the detailed analysis above\"\x7d" := by
  decide

theorem fenceTag_prefix_of_json (s : List Char)
    (h : startsWithL s fenceJsonTag = true) : startsWithL s fenceTag = true := by
  rw [startsWithL_iff] at h ⊢
  exact List.IsPrefix.trans (by decide) h

theorem stripFences_no_fence (s : List Char) (h : startsWithL s fenceTag = false) :
    stripFences s = s := by
  have hj : startsWithL s fenceJsonTag = false := by
    cases hj : startsWithL s fenceJsonTag with
    | true => rw [fenceTag_prefix_of_json s hj] at h; cases h
    | false => rfl
  unfold stripFences
  rw [h, hj]
  simp

theorem dropWhile_head_false {p : Char → Bool} :
    ∀ (l : List Char) (a : Char) (r : List Char), l.dropWhile p = a :: r → p a = false := by
  intro l
  induction l with
  | nil => intro a r h; cases h
  | cons b bs ih =>
    intro a r h
    rw [List.dropWhile_cons] at h
    by_cases hb : p b = true
    · rw [if_pos hb] at h
      exact ih a r h
    · rw [if_neg hb] at h
      cases h
      simpa using hb

theorem startsWithL_false (s t : List Char) :
    startsWithL s t = false ↔ ¬ (t <+: s) := by
  constructor
  · intro h hb
    rw [← startsWithL_iff, h] at hb
    cases hb
  · intro h
    cases hb : startsWithL s t with
    | false => rfl
    | true => exact absurd ((startsWithL_iff s t).mp hb) h

theorem jsTrim_head_not_ws (x : List Char) (a : Char) (r : List Char)
    (h : jsTrim x = a :: r) : jsWs a = false := by
  have hpre : (a :: r) <+: (x.dropWhile jsWs) := by
    rw [← h]
    unfold jsTrim
    exact List.rdropWhile_prefix jsWs (x.dropWhile jsWs)
  rcases hpre with ⟨u, hu⟩
  exact dropWhile_head_false x a (r ++ u) hu.symm

/-- If `t` does not start with a fence and `c0` is not a backtick, then `t`
followed by `c0 :: u` does not start with a fence either. -/
theorem fence_not_prefix_append (t : List Char) (c0 : Char) (u : List Char)
    (ht : startsWithL t fenceTag = false) (hc0 : c0 ≠ backtickC) :
    startsWithL (t ++ c0 :: u) fenceTag = false := by
  cases hcl : startsWithL (t ++ c0 :: u) fenceTag with
  | false => rfl
  | true =>
    exfalso
    rw [startsWithL_iff, fenceTag_eq] at hcl
    match t, ht with
    | [], ht =>
      rw [List.nil_append, List.cons_prefix_cons] at hcl
      exact hc0 hcl.1.symm
    | [a], ht =>
      rw [List.cons_append, List.nil_append, List.cons_prefix_cons,
        List.cons_prefix_cons] at hcl
      exact hc0 hcl.2.1.symm
    | [a, b], ht =>
      rw [List.cons_append, List.cons_append, List.nil_append,
        List.cons_prefix_cons, List.cons_prefix_cons, List.cons_prefix_cons] at hcl
      exact hc0 hcl.2.2.1.symm
    | a :: b :: d :: r, ht =>
      rw [List.cons_append, List.cons_append, List.cons_append,
        List.cons_prefix_cons, List.cons_prefix_cons, List.cons_prefix_cons] at hcl
      obtain ⟨ha, hb, hd, -⟩ := hcl
      exact (startsWithL_false _ _).mp ht (by
        rw [fenceTag_eq, ← ha, ← hb, ← hd]
        exact ⟨r, rfl⟩)

theorem repair_no_fence (t : List Char) (ht : startsWithL t fenceTag = false) :
    startsWithL (repairTruncation t) fenceTag = false := by
  rcases repair_cases t with h | h | h <;> rw [h]
  · exact ht
  · exact fence_not_prefix_append t rbrace [] ht (by decide)
  · rw [recRepairSuffix_cons]
    exact fence_not_prefix_append t quoteC _ ht (by decide)

theorem repair_nil : repairTruncation [] = [rbrace] := by decide

/-- A text with a non-whitespace head, a closing-brace tail and no leading
fence is a fixed point of the whole cleaning step. -/
theorem clean_fixed (c : List Char)
    (hhead : ∀ a r, c = a :: r → jsWs a = false)
    (hbrace : endsWithL c [rbrace] = true)
    (hfence : startsWithL c fenceTag = false) :
    cleanResponse c = c := by
  have hdrop : c.dropWhile jsWs = c := by
    cases hc : c with
    | nil => rfl
    | cons a r =>
      rw [List.dropWhile_cons, hhead a r hc]
      simp
  have hrdrop : c.rdropWhile jsWs = c := by
    rw [endsWithL_iff] at hbrace
    rcases hbrace with ⟨y, hy⟩
    rw [← hy]
    exact List.rdropWhile_concat_neg jsWs y rbrace (by decide)
  have htrim : jsTrim c = c := by
    unfold jsTrim
    rw [hdrop, hrdrop]
  unfold cleanResponse
  rw [htrim, stripFences_no_fence c hfence]
  exact repair_of_ends_brace c hbrace

/-- C8: the cleaning step (trim, fence-strip, truncation repair) is idempotent
on any input whose trimmed text does not start with a code fence. -/
theorem clean_idempotent (x : List Char)
    (hf : startsWithL (jsTrim x) fenceTag = false) :
    cleanResponse (cleanResponse x) = cleanResponse x := by
  have hclean : cleanResponse x = repairTruncation (jsTrim x) := by
    unfold cleanResponse
    rw [stripFences_no_fence (jsTrim x) hf]
  rw [hclean]
  apply clean_fixed
  · intro a r h
    cases ht : jsTrim x with
    | nil =>
      rw [ht, repair_nil] at h
      cases h
      decide
    | cons b bs =>
      have hbws : jsWs b = false := jsTrim_head_not_ws x b bs ht
      rw [ht] at h
      rcases repair_cases (b :: bs) with hc | hc | hc <;> rw [hc] at h
      · cases h; exact hbws
      · rw [List.cons_append] at h; cases h; exact hbws
      · rw [List.cons_append] at h; cases h; exact hbws
  · exact repair_ends_brace (jsTrim x)
  · exact repair_no_fence (jsTrim x) hf

/-- Witness for C8 at a concrete fence-free input. -/
theorem clean_idempotent_witness :
    cleanResponse (cleanResponse (cs "  \x7b\"score\": 90\x7d  ")) =
      cleanResponse (cs "  \x7b\"score\": 90\x7d  ") :=
  clean_idempotent (cs "  \x7b\"score\": 90\x7d  ") (by decide)

/-! ### JSON values and a model of the `JSON.parse` built-in

The source calls the JavaScript built-in `JSON.parse` inside try/catch.  The
built-in is modelled as a total recursive-descent parser over the JSON
grammar, returning `none` where `JSON.parse` throws `SyntaxError`.  Number
values are kept as their lexemes (the claims never depend on IEEE-754 number
semantics). -/

inductive Json where
  | null
  | bool (b : Bool)
  | num (lexeme : List Char)
  | str (value : List Char)
  | arr (items : List Json)
  | obj (fields : List (List Char × Json))

/-- JSON grammar whitespace: space, tab, LF, CR. -/
def jsonWs (c : Char) : Bool :=
  c.toNat = 32 || c.toNat = 9 || c.toNat = 10 || c.toNat = 13

def skipWs (s : List Char) : List Char := s.dropWhile jsonWs

def hexVal (c : Char) : Option Nat :=
  if 48 ≤ c.toNat ∧ c.toNat ≤ 57 then some (c.toNat - 48)
  else if 97 ≤ c.toNat ∧ c.toNat ≤ 102 then some (c.toNat - 87)
  else if 65 ≤ c.toNat ∧ c.toNat ≤ 70 then some (c.toNat - 55)
  else none

def escChar (c : Char) : Option Char :=
  if c = quoteC then some quoteC
  else if c = '\\' then some '\\'
  else if c = '/' then some '/'
  else if c = 'b' then some (Char.ofNat 8)
  else if c = 'f' then some (Char.ofNat 12)
  else if c = 'n' then some (Char.ofNat 10)
  else if c = 'r' then some (Char.ofNat 13)
  else if c = 't' then some (Char.ofNat 9)
  else none

/-- Parse the body of a JSON string after the opening quote, decoding escape
sequences, up to and including the closing quote.  Raw control characters
below 0x20 are a syntax error, as in `JSON.parse`. -/
def parseStringBody : List Char → Option (List Char × List Char)
  | [] => none
  | c :: r =>
    if c = quoteC then some ([], r)
    else if c = '\\' then
      match r with
      | 'u' :: h1 :: h2 :: h3 :: h4 :: r2 =>
        match hexVal h1, hexVal h2, hexVal h3, hexVal h4 with
        | some a, some b, some g, some d =>
          match parseStringBody r2 with
          | some (body, rest) =>
              some (Char.ofNat (a * 4096 + b * 256 + g * 16 + d) :: body, rest)
          | none => none
        | _, _, _, _ => none
      | e :: r2 =>
        match escChar e with
        | some ce =>
          match parseStringBody r2 with
          | some (body, rest) => some (ce :: body, rest)
          | none => none
        | none => none
      | [] => none
    else if c.toNat < 32 then none
    else
      match parseStringBody r with
      | some (body, rest) => some (c :: body, rest)
      | none => none

/-- Optional exponent part of a JSON number (grammar: `[eE][+-]?digits`). -/
def numExp (acc : List Char) (s : List Char) : Option (List Char × List Char) :=
  match s with
  | c :: r =>
    if c = 'e' ∨ c = 'E' then
      match r with
      | c2 :: r2 =>
        if c2 = '+' ∨ c2 = '-' then
          match r2.takeWhile Char.isDigit with
          | [] => none
          | ds => some (acc ++ [c, c2] ++ ds, r2.dropWhile Char.isDigit)
        else
          match r.takeWhile Char.isDigit with
          | [] => none
          | ds => some (acc ++ [c] ++ ds, r.dropWhile Char.isDigit)
      | [] => none
    else some (acc, s)
  | [] => some (acc, s)

/-- Optional fraction part of a JSON number (grammar: `.digits`), followed by
the optional exponent. -/
def numFrac (acc : List Char) (s : List Char) : Option (List Char × List Char) :=
  match s with
  | c :: r =>
    if c = '.' then
      match r.takeWhile Char.isDigit with
      | [] => none
      | ds => numExp (acc ++ [c] ++ ds) (r.dropWhile Char.isDigit)
    else numExp acc s
  | [] => numExp acc s

/-- A JSON number lexeme: `-? (0 | [1-9][0-9]*) frac? exp?`. -/
def parseNumber (s : List Char) : Option (List Char × List Char) :=
  let step : List Char → List Char → Option (List Char × List Char) :=
    fun negPart s1 =>
      match s1 with
      | [] => none
      | c :: r =>
        if c = '0' then numFrac (negPart ++ [c]) r
        else if 49 ≤ c.toNat ∧ c.toNat ≤ 57 then
          numFrac (negPart ++ [c] ++ r.takeWhile Char.isDigit) (r.dropWhile Char.isDigit)
        else none
  match s with
  | c :: r => if c = '-' then step [c] r else step [] s
  | [] => none

/-- `obj[key] = v` on the field list of a JavaScript object: replace the value
in place when the key is already present (insertion order kept), else append. -/
def objInsert (fields : List (List Char × Json)) (k : List Char) (v : Json) :
    List (List Char × Json) :=
  if fields.any (fun p => p.1 == k) then
    fields.map (fun p => if p.1 == k then (k, v) else p)
  else fields ++ [(k, v)]

/-- Parsing mode of the defunctionalized recursive-descent parser: a value,
the members of an object (at the point where a member must follow), or the
items of an array (at the point where an item must follow). -/
inductive PMode where
  | value
  | members (acc : List (List Char × Json))
  | items (acc : List Json)

/-- One fuelled step of the recursive-descent JSON parser.  The fuel only
bounds the recursion depth; `jsonParse` supplies enough for any input. -/
def parseStep : Nat → PMode → List Char → Option (Json × List Char)
  | 0, _, _ => none
  | fuel + 1, PMode.value, s =>
    match s with
    | [] => none
    | c :: r =>
      if c = quoteC then
        match parseStringBody r with
        | some (body, rest) => some (Json.str body, rest)
        | none => none
      else if c = lbrace then
        match skipWs r with
        | [] => none
        | c2 :: r2 =>
          if c2 = rbrace then some (Json.obj [], r2)
          else parseStep fuel (PMode.members []) (c2 :: r2)
      else if c = '[' then
        match skipWs r with
        | [] => none
        | c2 :: r2 =>
          if c2 = ']' then some (Json.arr [], r2)
          else parseStep fuel (PMode.items []) (c2 :: r2)
      else if c = 'n' then
        match s with
        | 'n' :: 'u' :: 'l' :: 'l' :: rest => some (Json.null, rest)
        | _ => none
      else if c = 't' then
        match s with
        | 't' :: 'r' :: 'u' :: 'e' :: rest => some (Json.bool true, rest)
        | _ => none
      else if c = 'f' then
        match s with
        | 'f' :: 'a' :: 'l' :: 's' :: 'e' :: rest => some (Json.bool false, rest)
        | _ => none
      else if c = '-' ∨ c.isDigit then
        match parseNumber s with
        | some (lex, rest) => some (Json.num lex, rest)
        | none => none
      else none
  | fuel + 1, PMode.members acc, s =>
    match s with
    | [] => none
    | c :: r =>
      if c = quoteC then
        match parseStringBody r with
        | some (key, r1) =>
          match skipWs r1 with
          | c2 :: r2 =>
            if c2 = ':' then
              match parseStep fuel PMode.value (skipWs r2) with
              | some (v, r3) =>
                match skipWs r3 with
                | c3 :: r4 =>
                  if c3 = ',' then
                    parseStep fuel (PMode.members (objInsert acc key v)) (skipWs r4)
                  else if c3 = rbrace then
                    some (Json.obj (objInsert acc key v), r4)
                  else none
                | [] => none
              | none => none
            else none
          | [] => none
        | none => none
      else none
  | fuel + 1, PMode.items acc, s =>
    match parseStep fuel PMode.value s with
    | some (v, r1) =>
      match skipWs r1 with
      | c2 :: r2 =>
        if c2 = ',' then parseStep fuel (PMode.items (acc ++ [v])) (skipWs r2)
        else if c2 = ']' then some (Json.arr (acc ++ [v]), r2)
        else none
      | [] => none
    | none => none

/-- The model of the `JSON.parse` built-in: `none` where the built-in throws. -/
def jsonParse (s : List Char) : Option Json :=
  match parseStep (2 * s.length + 4) PMode.value (skipWs s) with
  | some (j, rest) => if skipWs rest = [] then some j else none
  | none => none

/-! ### Structured response recovery (src/unnamed/part_001) -/

/-- Property lookup on the field list of a JavaScript object. -/
def objGet (fields : List (List Char × Json)) (k : List Char) : Option Json :=
  match fields.find? (fun p => p.1 == k) with
  | some p => some p.2
  | none => none

/-- Whether every mantissa digit of a JSON number lexeme is zero, i.e. the
parsed JavaScript number is 0 (which is falsy). -/
def numLexemeZero (lex : List Char) : Bool :=
  (lex.takeWhile fun c => !(c == 'e') && !(c == 'E')).all
    fun c => !decide (49 ≤ c.toNat ∧ c.toNat ≤ 57)

/-- JavaScript truthiness of a value produced by `JSON.parse` (`NaN` cannot
arise from parsing; number underflow to zero is not modelled). -/
def jsTruthy : Json → Bool
  | Json.null => false
  | Json.bool b => b
  | Json.num lex => !numLexemeZero lex
  | Json.str v => !v.isEmpty
  | Json.arr _ => true
  | Json.obj _ => true

def qaKey : List Char := cs "question_analysis"

/-- `if (!parsedAnalysis.question_analysis) parsedAnalysis.question_analysis = [];`
(src/unnamed/part_001, lines 344-346).  Property assignment on a primitive has
no observable effect, so non-objects are returned unchanged. -/
def ensureQuestionAnalysis : Json → Json
  | Json.obj fields =>
    match objGet fields qaKey with
    | some v =>
      if jsTruthy v then Json.obj fields
      else Json.obj (objInsert fields qaKey (Json.arr []))
    | none => Json.obj (objInsert fields qaKey (Json.arr []))
  | j => j

/-- Shape of the structured fallback of `analyzeContent` (src/unnamed/part_001,
lines 200-208). -/
structure BasicAnalysis where
  score : Nat
  subject : List Char
  errors : List Json
  corrections : List Json
  summary : List Char
  raw_response : List Char

/-- Result of the parse-and-recover stage of `analyzeContent`. -/
inductive BasicRecovered where
  | parsed (j : Json)
  | degraded (d : BasicAnalysis)

/-- Parse-and-recover stage of `analyzeContent` (src/unnamed/part_001, lines
193-209): `JSON.parse(analysisText)` inside try; the structured fallback in
catch.  Note that this site runs no cleaning step. -/
def analyzeContentRecover (analysisText : List Char) : BasicRecovered :=
  match jsonParse analysisText with
  | some j => BasicRecovered.parsed j
  | none =>
    BasicRecovered.degraded
      { score := 0, subject := cs "Unknown", errors := [], corrections := [],
        summary := analysisText, raw_response := analysisText }

/-- Shape of the structured fallback of `analyzeContentWithStatement`
(src/unnamed/part_001, lines 354-363). -/
structure StatementAnalysis where
  overall_score : Nat
  subject : List Char
  statement_used : Bool
  question_analysis : List Json
  summary : List Char
  recommendations : List Char
  raw_response : List Char

/-- Result of the clean-parse-validate stage of `analyzeContentWithStatement`. -/
inductive StatementRecovered where
  | parsed (j : Json)
  | degraded (d : StatementAnalysis)

/-- The structured fallback of `analyzeContentWithStatement`. -/
def statementFallback (analysisText : List Char) : StatementAnalysis :=
  { overall_score := 0, subject := cs "Unknown", statement_used := true,
    question_analysis := [],
    summary := cs "Analysis completed but formatting issues occurred. Please review manually.",
    recommendations := cs "Please review the analysis manually",
    raw_response := analysisText }

/-- Clean-parse-validate stage of `analyzeContentWithStatement`
(src/unnamed/part_001, lines 320-364): clean, parse, substitute a missing or
falsy `question_analysis` with an empty array, or fall back. -/
def analyzeContentWithStatementRecover (analysisText : List Char) :
    StatementRecovered :=
  match jsonParse (cleanResponse analysisText) with
  | some j => StatementRecovered.parsed (ensureQuestionAnalysis j)
  | none => StatementRecovered.degraded (statementFallback analysisText)

/-- C1: for every string input, both recovery sites are total and resolve to
exactly one of two outcomes — the parsed record, or the structured degraded
fallback — so the parse-and-validate stage has no uncaught exception path.
The concrete conjuncts instantiate the dichotomy at the spec's example
inputs: empty string, pure whitespace, valid JSON of the wrong shape, and
JSON truncated mid-field. -/
theorem recovery_never_raises (s : List Char) :
    ((∃ j, jsonParse s = some j ∧ analyzeContentRecover s = BasicRecovered.parsed j) ∨
      (jsonParse s = none ∧ analyzeContentRecover s = BasicRecovered.degraded
        { score := 0, subject := cs "Unknown", errors := [], corrections := [],
          summary := s, raw_response := s })) ∧
    ((∃ j, jsonParse (cleanResponse s) = some j ∧
        analyzeContentWithStatementRecover s =
          StatementRecovered.parsed (ensureQuestionAnalysis j)) ∨
      (jsonParse (cleanResponse s) = none ∧
        analyzeContentWithStatementRecover s =
          StatementRecovered.degraded (statementFallback s))) ∧
    analyzeContentWithStatementRecover (cs "") =
      StatementRecovered.degraded (statementFallback (cs "")) ∧
    analyzeContentWithStatementRecover (cs "  \n ") =
      StatementRecovered.degraded (statementFallback (cs "  \n ")) ∧
    analyzeContentRecover (cs "[1, 2]") =
      BasicRecovered.parsed (Json.arr [Json.num (cs "1"), Json.num (cs "2")]) ∧
    analyzeContentWithStatementRecover (cs "\x7b\"foo\": 1\x7d") =
      StatementRecovered.parsed
        (Json.obj [(cs "foo", Json.num (cs "1")),
          (cs "question_analysis", Json.arr [])]) ∧
    analyzeContentWithStatementRecover (cs "\x7b\"overall_score\": 4") =
      StatementRecovered.parsed
        (ensureQuestionAnalysis
          (Json.obj [(cs "overall_score", Json.num (cs "4"))])) ∧
    analyzeContentRecover (cs "\x7b\"summary\": \"Good work") =
      BasicRecovered.degraded
        { score := 0, subject := cs "Unknown", errors := [], corrections := [],
          summary := cs "\x7b\"summary\": \"Good work",
          raw_response := cs "\x7b\"summary\": \"Good work" } := by
  refine ⟨?_, ?_, rfl, rfl, rfl, rfl, rfl, rfl⟩
  · cases hj : jsonParse s with
    | some j =>
      exact Or.inl ⟨j, rfl, by unfold analyzeContentRecover; rw [hj]⟩
    | none =>
      exact Or.inr ⟨rfl, by unfold analyzeContentRecover; rw [hj]⟩
  · cases hj : jsonParse (cleanResponse s) with
    | some j =>
      exact Or.inl ⟨j, rfl, by unfold analyzeContentWithStatementRecover; rw [hj]⟩
    | none =>
      exact Or.inr ⟨rfl, by unfold analyzeContentWithStatementRecover; rw [hj]⟩

/-- C6 (amended): on parse failure, the statement-context recovery returns the
degraded record with zero score, subject Unknown, empty question analysis,
the two fixed human-readable notes and the raw text verbatim; the basic
recovery returns zero score, subject Unknown, empty error and correction
lists, and the raw text verbatim in both `summary` and `raw_response` — with
no separate could-not-complete note. -/
theorem degraded_record_shape (s : List Char) :
    (jsonParse s = none →
      analyzeContentRecover s = BasicRecovered.degraded
        { score := 0, subject := cs "Unknown", errors := [], corrections := [],
          summary := s, raw_response := s }) ∧
    (jsonParse (cleanResponse s) = none →
      analyzeContentWithStatementRecover s = StatementRecovered.degraded
        { overall_score := 0, subject := cs "Unknown", statement_used := true,
          question_analysis := [],
          summary := cs "Analysis completed but formatting issues occurred. Please review manually.",
          recommendations := cs "Please review the analysis manually",
          raw_response := s }) := by
  constructor
  · intro hj
    unfold analyzeContentRecover
    rw [hj]
  · intro hj
    unfold analyzeContentWithStatementRecover
    rw [hj]
    rfl

/-- Witness for the amended C6 at the parse-failing input `2+2`. -/
theorem degraded_record_shape_witness :
    analyzeContentRecover (cs "2+2") = BasicRecovered.degraded
      { score := 0, subject := cs "Unknown", errors := [], corrections := [],
        summary := cs "2+2", raw_response := cs "2+2" } ∧
    analyzeContentWithStatementRecover (cs "2+2") = StatementRecovered.degraded
      { overall_score := 0, subject := cs "Unknown", statement_used := true,
        question_analysis := [],
        summary := cs "Analysis completed but formatting issues occurred. Please review manually.",
        recommendations := cs "Please review the analysis manually",
        raw_response := cs "2+2" } :=
  ⟨(degraded_record_shape (cs "2+2")).1 (by rfl),
    (degraded_record_shape (cs "2+2")).2 (by rfl)⟩

/-- C6 counterexample: at the parse-failing raw model text `2+2`, the basic
recovery (`analyzeContent`, the second code site the claim covers) produces a
degraded record whose `summary` field is the raw model text itself; its only
string fields are the subject classification `Unknown` and two verbatim
copies of the raw text, so the record carries no human-readable note that
automatic analysis could not be completed, contrary to the claim. -/
theorem degraded_note_counterexample :
    analyzeContentRecover (cs "2+2") = BasicRecovered.degraded
      { score := 0, subject := cs "Unknown", errors := [], corrections := [],
        summary := cs "2+2", raw_response := cs "2+2" } ∧
    cs "2+2" ≠
      cs "Analysis completed but formatting issues occurred. Please review manually." ∧
    cs "2+2" ≠ cs "Unknown" :=
  ⟨rfl, by decide, by decide⟩

/-! ### Document normalization (src/services/fileProcessor.js)

The external capabilities are oracle parameters: `convert` is the pdf2pic
page-rasterization call for a 1-based page index (`none` models a thrown
error or a result without a buffer — both end the tier-1 loop), `optimize`
is the sharp re-encode of one raster buffer (`none` models a sharp failure,
which the same try/catch also turns into end-of-loop), and `renderSvg` is the
sharp rasterization of the synthesized SVG page (total: the SVG built by
`createTextImage` is well-formed). -/

/-- The per-page character budget of the text-extraction fallback
(`textPerPage`, src/services/fileProcessor.js line 157). -/
def textPerPage : Nat := 2000

/-- The loop `for (let i = 0; i < text.length; i += textPerPage)
pages.push(text.substring(i, i + textPerPage))` (lines 161-163), written with
the list length as structural fuel (each step consumes at least one
character, so the fuel is never exhausted from the entry point). -/
def pageChunksFuel : Nat → List Char → List (List Char)
  | _, [] => []
  | 0, _ :: _ => []
  | fuel + 1, c :: r =>
    ((c :: r).take textPerPage) :: pageChunksFuel fuel ((c :: r).drop textPerPage)

/-- The page chunks of the extracted text, in order. -/
def pageChunks (text : List Char) : List (List Char) :=
  pageChunksFuel text.length text

/-- The placeholder pushed when no text could be extracted (line 166). -/
def emptyPdfText : List Char := cs "Empty PDF or could not extract text"

/-- Characters removed by the control-character strips of `createTextImage`
(lines 198-202): C0 controls except tab/LF/CR, DEL, and the Unicode
replacement character. -/
def strippedCtl (c : Char) : Bool :=
  decide (c.toNat ≤ 8) || decide (c.toNat = 11) || decide (c.toNat = 12) ||
    decide (14 ≤ c.toNat ∧ c.toNat ≤ 31) || decide (c.toNat = 127) ||
    decide (c.toNat = 0xFFFD)

/-- The XML escaping of `createTextImage` (lines 204-208).  The replacement
strings contain no character matched by a later replace, so the sequential
replaces equal one character-wise pass. -/
def escapeXmlChar (c : Char) : List Char :=
  if c = '&' then cs "&amp;"
  else if c = '<' then cs "&lt;"
  else if c = '>' then cs "&gt;"
  else if c = quoteC then cs "&quot;"
  else if c = apos then cs "&apos;"
  else [c]

/-- The sanitization chain of `createTextImage` (lines 197-210): strip
control characters, escape XML specials, truncate to 3000 characters. -/
def sanitizeText (text : List Char) : List Char :=
  (((text.filter (fun c => !strippedCtl c)).flatMap escapeXmlChar).take 3000)

/-- Decimal digits of a number interpolated into the SVG template. -/
def natChars (n : Nat) : List Char := (toString n).data

/-- Static template text before the page number (`createTextImage`, lines
212-216, with width 1024 and height 1448 substituted). -/
def svgHead : List Char :=
  cs "\n            <svg width=\"1024\" height=\"1448\" xmlns=\"http://www.w3.org/2000/svg\">\n                <rect width=\"100%\" height=\"100%\" fill=\"white\"/>\n                <text x=\"20\" y=\"30\" font-family=\"Arial\" font-size=\"12\" fill=\"#999\">\n                    Page "

/-- Static template text between the page number and the total. -/
def svgOf : List Char := cs " of "

/-- Static template text between the header and the sanitized body (lines
217-222, with the foreignObject box 984 by 1368 substituted). -/
def svgBodyOpen : List Char :=
  cs "\n                </text>\n                <foreignObject x=\"20\" y=\"50\" width=\"984\" height=\"1368\">\n                    <div xmlns=\"http://www.w3.org/1999/xhtml\"\n                         style=\"font-family: Arial, sans-serif; font-size: 12px; line-height: 1.6;\n                                color: #333; word-wrap: break-word; white-space: pre-wrap;\">\n                        "

/-- Static template text after the sanitized body (lines 223-229, with the
footer y 1428 substituted). -/
def svgTail : List Char :=
  cs "\n                    </div>\n                </foreignObject>\n                <text x=\"20\" y=\"1428\" font-family=\"Arial\" font-size=\"10\" fill=\"#999\">\n                    Generated from PDF text extraction\n                </text>\n            </svg>\n        "

/-- The SVG template of `createTextImage` (lines 212-229). -/
def mkSvg (sanitized : List Char) (pageNum totalPages : Nat) : List Char :=
  svgHead ++ natChars pageNum ++ svgOf ++ natChars totalPages ++
    svgBodyOpen ++ sanitized ++ svgTail

/-- `createTextImage` (lines 191-240): sanitize, build the SVG, rasterize it
through the external encoder. -/
def createTextImage {Buf : Type} (renderSvg : List Char → Buf)
    (text : List Char) (pageNum totalPages : Nat) : Buf :=
  renderSvg (mkSvg (sanitizeText text) pageNum totalPages)

/-- The `pages` local of `processPDFWithTextExtraction` (lines 158-167): the
chunks of `pdfData.text || ''`, or the single placeholder when there are
none. -/
def textPages (textField : Option (List Char)) : List (List Char) :=
  if (pageChunks (textField.getD [])).length = 0 then [emptyPdfText]
  else pageChunks (textField.getD [])

/-- `processPDFWithTextExtraction` (lines 151-182): chunk the extracted text,
substitute a placeholder when there are no chunks, and render each chunk, in
order.  (`pdf-parse` itself throwing is the fatal `Failed to process PDF
file` path, outside these claims.) -/
def processPDFWithTextExtraction {Buf : Type} (renderSvg : List Char → Buf)
    (textField : Option (List Char)) : List Buf :=
  (textPages textField).mapIdx fun i p =>
    createTextImage renderSvg p (i + 1) (textPages textField).length

/-- The tier-1 loop of `processPDFWithPdf2Pic` (lines 109-136):
`while (hasMorePages && pageNum <= 20)`, pushing the optimized buffer on
success and terminating on the first failure of either the conversion or the
re-encode.  The structural fuel (21 from the entry point) covers every page
number the guard admits. -/
def pdf2picLoop {Buf : Type} (convert : Nat → Option Buf)
    (optimize : Buf → Option Buf) : Nat → Nat → List Buf → List Buf
  | 0, _, images => images
  | fuel + 1, pageNum, images =>
    if pageNum ≤ 20 then
      match convert pageNum with
      | some raw =>
        match optimize raw with
        | some opt => pdf2picLoop convert optimize fuel (pageNum + 1) (images ++ [opt])
        | none => images
      | none => images
    else images

/-- `processPDFWithPdf2Pic` (lines 93-144): run the loop from page 1; throw
when zero pages were converted. -/
def processPDFWithPdf2Pic {Buf : Type} (convert : Nat → Option Buf)
    (optimize : Buf → Option Buf) : Except (List Char) (List Buf) :=
  if (pdf2picLoop convert optimize 21 1 []).length = 0 then
    Except.error (cs "No pages could be converted from PDF using pdf2pic")
  else Except.ok (pdf2picLoop convert optimize 21 1 [])

/-- `processPDF` (lines 73-86): try tier 1 when pdf2pic is available, fall
back to text extraction when it is unavailable or failed. -/
def processPDF {Buf : Type}
    (tier1 : Option ((Nat → Option Buf) × (Buf → Option Buf)))
    (renderSvg : List Char → Buf) (textField : Option (List Char)) : List Buf :=
  match tier1 with
  | some (convert, optimize) =>
    match processPDFWithPdf2Pic convert optimize with
    | Except.ok imgs => imgs
    | Except.error _ => processPDFWithTextExtraction renderSvg textField
  | none => processPDFWithTextExtraction renderSvg textField

/-- `processFile` (lines 50-66): dispatch on the lower-cased extension;
`imageEncode` is the sharp re-encode of the single image (`none` models the
`Failed to process image file` path of `processImage`). -/
def processFile {Buf : Type} (ext : List Char)
    (tier1 : Option ((Nat → Option Buf) × (Buf → Option Buf)))
    (renderSvg : List Char → Buf) (textField : Option (List Char))
    (imageEncode : Option Buf) : Except (List Char) (List Buf) :=
  if ext = cs ".pdf" then Except.ok (processPDF tier1 renderSvg textField)
  else if ext = cs ".jpg" ∨ ext = cs ".jpeg" ∨ ext = cs ".png" then
    match imageEncode with
    | some b => Except.ok [b]
    | none => Except.error (cs "Failed to process image file")
  else Except.error (cs "Unsupported file type: " ++ ext)

/-- A concrete rasterization oracle used by the witnesses below: the rendered
page is its own SVG text. -/
def idRender : List Char → List Char := fun svg => svg

/-- Modelled from the spec: the dimension semantics of the external sharp
resize call with `fit: 'inside', withoutEnlargement: true` (§4.1 of the spec:
"Downscales preserving aspect ratio so neither dimension exceeds the
configured maximum; never upscales").  sharp is the external raster encoder;
the repository only contributes the parameters.  An image within bounds is
returned as is; otherwise the binding axis is scaled to its maximum and the
other axis scaled proportionally (floor). -/
def fitInside (w h maxW maxH : Nat) : Nat × Nat :=
  if w ≤ maxW ∧ h ≤ maxH then (w, h)
  else if w * maxH ≤ maxW * h then ((w * maxH) / h, maxH)
  else (maxW, (h * maxW) / w)

/-- The resize of `processImage` (lines 250-256): maximum 1024 by 1024. -/
def processImageDims (w h : Nat) : Nat × Nat := fitInside w h 1024 1024

/-- The per-page resize of `processPDFWithPdf2Pic` (lines 119-125): maximum
1024 by 1448. -/
def pdf2picPageDims (w h : Nat) : Nat × Nat := fitInside w h 1024 1448

/-! ### Helper lemmas about the normalizer -/

theorem pageChunksFuel_length :
    ∀ (fuel : Nat) (l : List Char), l.length ≤ fuel →
      (pageChunksFuel fuel l).length = (l.length + 1999) / 2000 := by
  intro fuel
  induction fuel with
  | zero =>
    intro l hl
    cases l with
    | nil => simp [pageChunksFuel]
    | cons c r => simp at hl
  | succ f ih =>
    intro l hl
    cases l with
    | nil => simp [pageChunksFuel]
    | cons c r =>
      simp only [pageChunksFuel, List.length_cons]
      rw [ih ((c :: r).drop textPerPage) (by
        simp only [List.length_drop, List.length_cons, textPerPage]
        simp only [List.length_cons] at hl
        omega)]
      simp only [List.length_drop, List.length_cons, textPerPage]
      simp only [List.length_cons] at hl
      omega

theorem pageChunks_length (l : List Char) :
    (pageChunks l).length = (l.length + 1999) / 2000 :=
  pageChunksFuel_length l.length l (Nat.le_refl _)

theorem pageChunksFuel_flatten :
    ∀ (fuel : Nat) (l : List Char), l.length ≤ fuel →
      (pageChunksFuel fuel l).flatten = l := by
  intro fuel
  induction fuel with
  | zero =>
    intro l hl
    cases l with
    | nil => simp [pageChunksFuel]
    | cons c r => simp at hl
  | succ f ih =>
    intro l hl
    cases l with
    | nil => simp [pageChunksFuel]
    | cons c r =>
      simp only [pageChunksFuel, List.flatten_cons]
      rw [ih ((c :: r).drop textPerPage) (by
        simp only [List.length_drop, List.length_cons, textPerPage]
        simp only [List.length_cons] at hl
        omega)]
      exact List.take_append_drop textPerPage (c :: r)

theorem pageChunks_flatten (l : List Char) : (pageChunks l).flatten = l :=
  pageChunksFuel_flatten l.length l (Nat.le_refl _)

theorem pageChunks_short (text : List Char) (h0 : text ≠ [])
    (h2 : text.length ≤ 2000) : pageChunks text = [text] := by
  cases text with
  | nil => cases h0 rfl
  | cons c r =>
    simp only [pageChunks, List.length_cons, pageChunksFuel]
    rw [List.take_of_length_le (by simpa [textPerPage] using h2),
      List.drop_eq_nil_of_le (by simpa [textPerPage] using h2)]
    simp [pageChunksFuel]

theorem textPages_length (textField : Option (List Char)) :
    (textPages textField).length =
      max 1 (((textField.getD []).length + 1999) / 2000) := by
  unfold textPages
  by_cases h : (pageChunks (textField.getD [])).length = 0
  · rw [if_pos h]
    rw [pageChunks_length] at h
    simp only [List.length_cons, List.length_nil]
    omega
  · rw [if_neg h]
    rw [pageChunks_length] at h
    rw [pageChunks_length]
    omega

theorem tier2_length {Buf : Type} (renderSvg : List Char → Buf)
    (textField : Option (List Char)) :
    (processPDFWithTextExtraction renderSvg textField).length =
      max 1 (((textField.getD []).length + 1999) / 2000) := by
  unfold processPDFWithTextExtraction
  rw [List.length_mapIdx]
  exact textPages_length textField

theorem pdf2picLoop_length_le {Buf : Type} (convert : Nat → Option Buf)
    (optimize : Buf → Option Buf) :
    ∀ (fuel pageNum : Nat) (images : List Buf),
      (pdf2picLoop convert optimize fuel pageNum images).length ≤
        images.length + (21 - pageNum) := by
  intro fuel
  induction fuel with
  | zero => intro p imgs; simp [pdf2picLoop]
  | succ f ih =>
    intro p imgs
    simp only [pdf2picLoop]
    by_cases hp : p ≤ 20
    · rw [if_pos hp]
      cases hconv : convert p with
      | none =>
        show imgs.length ≤ imgs.length + (21 - p)
        omega
      | some raw =>
        show (match optimize raw with
          | some opt => pdf2picLoop convert optimize f (p + 1) (imgs ++ [opt])
          | none => imgs).length ≤ imgs.length + (21 - p)
        cases hopt : optimize raw with
        | none =>
          show imgs.length ≤ imgs.length + (21 - p)
          omega
        | some opt =>
          show (pdf2picLoop convert optimize f (p + 1) (imgs ++ [opt])).length ≤
            imgs.length + (21 - p)
          have := ih (p + 1) (imgs ++ [opt])
          simp only [List.length_append, List.length_cons, List.length_nil] at this
          omega
    · rw [if_neg hp]
      omega

/-! ### C2: the page-count ceiling -/

/-- C2 (amended): tier 1 never returns more than 20 pages (the loop guard
drops the excess), and the normalizer dispatches a pdf to `processPDF`
without further capping — but tier 2 returns
`max 1 (ceil(textLength / 2000))` pages with no ceiling at all, so its page
count exceeds 20 whenever the extracted text is longer than 40000
characters. -/
theorem page_ceiling_amended {Buf : Type} (convert : Nat → Option Buf)
    (optimize : Buf → Option Buf) (renderSvg : List Char → Buf)
    (textField : Option (List Char))
    (tier1 : Option ((Nat → Option Buf) × (Buf → Option Buf)))
    (imageEncode : Option Buf) :
    (pdf2picLoop convert optimize 21 1 []).length ≤ 20 ∧
    (∀ imgs, processPDFWithPdf2Pic convert optimize = Except.ok imgs →
      imgs.length ≤ 20) ∧
    (processPDFWithTextExtraction renderSvg textField).length =
      max 1 (((textField.getD []).length + 1999) / 2000) ∧
    processFile (cs ".pdf") tier1 renderSvg textField imageEncode =
      Except.ok (processPDF tier1 renderSvg textField) := by
  have hle : (pdf2picLoop convert optimize 21 1 []).length ≤ 20 := by
    have := pdf2picLoop_length_le convert optimize 21 1 []
    simpa using this
  refine ⟨hle, ?_, tier2_length renderSvg textField, rfl⟩
  intro imgs himgs
  unfold processPDFWithPdf2Pic at himgs
  split at himgs
  · cases himgs
  · cases himgs
    exact hle

/-- Witness for the amended C2 at a concrete one-page tier-1 oracle and a
concrete extracted text. -/
theorem page_ceiling_amended_witness :
    (processPDFWithTextExtraction idRender none).length =
      max 1 ((((none : Option (List Char)).getD []).length + 1999) / 2000) ∧
    [cs "page"].length ≤ 20 :=
  ⟨(page_ceiling_amended
      (fun i => if i = 1 then some (cs "page") else none) some idRender
      none none none).2.2.1,
    (page_ceiling_amended
      (fun i => if i = 1 then some (cs "page") else none) some idRender
      none none none).2.1 [cs "page"] (by rfl)⟩

/-- C2 counterexample: a pdf whose tier-1 renderer is unavailable and whose
extracted text has 42000 characters makes the normalizer return 21 pages —
the tier-2 fallback enforces no page-count ceiling, contradicting the claim
that the returned sequence never exceeds 20 pages. -/
theorem page_ceiling_counterexample :
    (processFile (cs ".pdf") none idRender
        (some (List.replicate 42000 'a')) none).map List.length =
      Except.ok 21 ∧
    ¬ (processPDF none idRender
        (some (List.replicate 42000 'a'))).length ≤ 20 := by
  have hlen : (processPDF none idRender
      (some (List.replicate 42000 'a'))).length = 21 := by
    show (processPDFWithTextExtraction idRender
      (some (List.replicate 42000 'a'))).length = 21
    rw [tier2_length]
    rw [Option.getD_some, List.length_replicate]
    decide
  constructor
  · show Except.ok ((processPDF none idRender
      (some (List.replicate 42000 'a'))).length) = Except.ok 21
    rw [hlen]
  · omega

/-! ### C3: tier-1 prefix semantics -/

theorem pdf2picLoop_segment {Buf : Type} (convert : Nat → Option Buf)
    (optimize : Buf → Option Buf) (k : Nat) (img : Nat → Buf)
    (hk : k ≤ 20)
    (hsucc : ∀ i, 1 ≤ i → i ≤ k →
      ∃ raw, convert i = some raw ∧ optimize raw = some (img i))
    (hfail : convert (k + 1) = none) :
    ∀ (fuel p : Nat) (images : List Buf), p + fuel = 22 → 1 ≤ p → p ≤ k + 1 →
      pdf2picLoop convert optimize fuel p images =
        images ++ (List.range (k + 1 - p)).map (fun i => img (p + i)) := by
  intro fuel
  induction fuel with
  | zero => intro p imgs hpf hp1 hpk; omega
  | succ f ih =>
    intro p imgs hpf hp1 hpk
    simp only [pdf2picLoop]
    by_cases hp20 : p ≤ 20
    · rw [if_pos hp20]
      by_cases hpk' : p ≤ k
      · obtain ⟨raw, hconv, hopt⟩ := hsucc p hp1 hpk'
        simp only [hconv, hopt]
        rw [ih (p + 1) (imgs ++ [img p]) (by omega) (by omega) (by omega),
          List.append_assoc]
        congr 1
        have h1 : k + 1 - p = (k - p) + 1 := by omega
        have h2 : k + 1 - (p + 1) = k - p := by omega
        rw [h1, h2, List.range_succ_eq_map, List.map_cons, List.map_map]
        simp only [List.singleton_append, Nat.add_zero]
        congr 1
        apply List.map_congr_left
        intro i _
        simp only [Function.comp]
        congr 1
        omega
      · have hpe : p = k + 1 := by omega
        subst hpe
        simp only [hfail]
        show imgs = imgs ++
          (List.range (k + 1 - (k + 1))).map (fun i => img (k + 1 + i))
        rw [Nat.sub_self]
        simp
    · rw [if_neg hp20]
      have h0 : k + 1 - p = 0 := by omega
      simp [h0]

/-- C3: when tier-1 rasterization succeeds for pages 1..k (1 ≤ k ≤ 20) and
fails at page k+1, the extractor returns exactly the k pages, in page order,
and the result does not depend on the text-extraction input — tier 2 is never
invoked. -/
theorem tier1_segment {Buf : Type} (convert : Nat → Option Buf)
    (optimize : Buf → Option Buf) (renderSvg : List Char → Buf)
    (k : Nat) (img : Nat → Buf) (hk1 : 1 ≤ k) (hk : k ≤ 20)
    (hsucc : ∀ i, 1 ≤ i → i ≤ k →
      ∃ raw, convert i = some raw ∧ optimize raw = some (img i))
    (hfail : convert (k + 1) = none) :
    processPDFWithPdf2Pic convert optimize =
      Except.ok ((List.range k).map (fun i => img (1 + i))) ∧
    ∀ textField, processPDF (some (convert, optimize)) renderSvg textField =
      (List.range k).map (fun i => img (1 + i)) := by
  have hloop := pdf2picLoop_segment convert optimize k img hk hsucc hfail
    21 1 [] (by omega) (by omega) (by omega)
  simp only [List.nil_append, Nat.add_sub_cancel] at hloop
  have hok : processPDFWithPdf2Pic convert optimize =
      Except.ok ((List.range k).map (fun i => img (1 + i))) := by
    unfold processPDFWithPdf2Pic
    rw [hloop, if_neg (by simp; omega)]
  refine ⟨hok, fun textField => ?_⟩
  show (match processPDFWithPdf2Pic convert optimize with
    | Except.ok imgs => imgs
    | Except.error _ => processPDFWithTextExtraction renderSvg textField) =
      (List.range k).map (fun i => img (1 + i))
  rw [hok]

/-- Witness for C3 with a concrete two-page oracle. -/
theorem tier1_segment_witness :
    processPDFWithPdf2Pic
        (fun i => if i ≤ 2 then some i else none) some =
      Except.ok ((List.range 2).map (fun i => (fun j => j) (1 + i))) ∧
    processPDF
        (some (fun i => if i ≤ 2 then some i else none, some))
        (fun _ => 0) (some (cs "unused text")) =
      (List.range 2).map (fun i => (fun j => j) (1 + i)) :=
  ⟨(tier1_segment (fun i => if i ≤ 2 then some i else none) some (fun _ => 0)
      2 (fun j => j) (by omega) (by omega)
      (fun i h1 h2 => ⟨i, by simp [h2], rfl⟩) (by rfl)).1,
   (tier1_segment (fun i => if i ≤ 2 then some i else none) some (fun _ => 0)
      2 (fun j => j) (by omega) (by omega)
      (fun i h1 h2 => ⟨i, by simp [h2], rfl⟩) (by rfl)).2
     (some (cs "unused text"))⟩

/-! ### C4: the tier-2 fallback -/

/-- C4: when tier 1 is unavailable (pdf2pic did not load) or converted zero
pages, the extractor falls back to tier 2, which returns exactly
`max 1 (ceil(textLength / 2000))` pages (also 1 for empty extracted text),
the pages rendering the chunks of the extracted text in order — the chunks
concatenate back to the original text. -/
theorem tier2_fallback {Buf : Type} (renderSvg : List Char → Buf)
    (convert : Nat → Option Buf) (optimize : Buf → Option Buf)
    (textField : Option (List Char))
    (hzero : pdf2picLoop convert optimize 21 1 [] = []) :
    processPDF none renderSvg textField =
      processPDFWithTextExtraction renderSvg textField ∧
    processPDF (some (convert, optimize)) renderSvg textField =
      processPDFWithTextExtraction renderSvg textField ∧
    (processPDFWithTextExtraction renderSvg textField).length =
      max 1 (((textField.getD []).length + 1999) / 2000) ∧
    (pageChunks (textField.getD [])).flatten = textField.getD [] ∧
    (textField.getD [] ≠ [] →
      processPDFWithTextExtraction renderSvg textField =
        (pageChunks (textField.getD [])).mapIdx fun i p =>
          createTextImage renderSvg p (i + 1)
            (pageChunks (textField.getD [])).length) := by
  refine ⟨rfl, ?_, tier2_length renderSvg textField, pageChunks_flatten _, ?_⟩
  · show (match processPDFWithPdf2Pic convert optimize with
      | Except.ok imgs => imgs
      | Except.error _ => processPDFWithTextExtraction renderSvg textField) =
        processPDFWithTextExtraction renderSvg textField
    unfold processPDFWithPdf2Pic
    rw [hzero]
    rfl
  · intro hne
    have hlen : 0 < (textField.getD []).length := List.length_pos.mpr hne
    have hch : ¬ (pageChunks (textField.getD [])).length = 0 := by
      rw [pageChunks_length]
      omega
    unfold processPDFWithTextExtraction textPages
    rw [if_neg hch]

/-- Witness for C4 with a failing tier-1 oracle and concrete text. -/
theorem tier2_fallback_witness :
    processPDF (some ((fun _ => none : Nat → Option (List Char)), some)) id
        (some (cs "hello")) =
      processPDFWithTextExtraction idRender (some (cs "hello")) ∧
    processPDFWithTextExtraction idRender (some (cs "hello")) =
      (pageChunks ((some (cs "hello") : Option (List Char)).getD [])).mapIdx
        (fun i p => createTextImage idRender p (i + 1)
          (pageChunks ((some (cs "hello") : Option (List Char)).getD [])).length) :=
  ⟨(tier2_fallback idRender (fun _ => none) some (some (cs "hello")) (by rfl)).2.1,
   (tier2_fallback idRender (fun _ => none) some (some (cs "hello")) (by rfl)).2.2.2.2
     (by decide)⟩

/-! ### C5: the text-to-image renderer on degenerate input -/

theorem containsL_of_infix (pat : List Char) :
    ∀ s : List Char, pat <:+: s → containsL s pat = true := by
  intro s
  induction s with
  | nil =>
    intro h
    have : pat = [] := List.eq_nil_of_infix_nil h
    subst this
    rfl
  | cons c r ih =>
    intro h
    rcases List.infix_cons_iff.mp h with hp | hi
    · unfold containsL
      rw [(List.isPrefixOf_iff_prefix).mpr hp]
      rfl
    · unfold containsL
      rw [ih hi]
      simp

/-- The sanitized body occurs verbatim inside the rendered SVG template. -/
theorem sanitized_infix_mkSvg (x : List Char) (pn tp : Nat) :
    x <:+: mkSvg x pn tp :=
  ⟨svgHead ++ natChars pn ++ svgOf ++ natChars tp ++ svgBodyOpen, svgTail, by
    simp [mkSvg, List.append_assoc]⟩

/-- C5: the text-to-image pipeline does not fail on degenerate input and
produces exactly one page: empty extracted text renders exactly one
placeholder page whose SVG body contains the message `Empty PDF or could not
extract text`, and any non-empty text of at most one chunk — including
whitespace-only text — renders exactly one page of that text. -/
theorem render_text_total {Buf : Type} (renderSvg : List Char → Buf)
    (textField : Option (List Char)) (text : List Char) :
    (textField.getD [] = [] →
      processPDFWithTextExtraction renderSvg textField =
        [createTextImage renderSvg emptyPdfText 1 1]) ∧
    (text ≠ [] → text.length ≤ 2000 →
      processPDFWithTextExtraction renderSvg (some text) =
        [createTextImage renderSvg text 1 1]) ∧
    containsL (mkSvg (sanitizeText emptyPdfText) 1 1) emptyPdfText = true := by
  have hsan : sanitizeText emptyPdfText = emptyPdfText := by decide
  refine ⟨?_, ?_, ?_⟩
  case refine_3 =>
    rw [hsan]
    exact containsL_of_infix emptyPdfText _ (sanitized_infix_mkSvg emptyPdfText 1 1)
  · intro h0
    unfold processPDFWithTextExtraction textPages
    rw [h0]
    rfl
  · intro hne hlen
    unfold processPDFWithTextExtraction textPages
    rw [Option.getD_some, pageChunks_short text hne hlen]
    rfl

/-- Witness for C5 at empty and whitespace-only inputs. -/
theorem render_text_total_witness :
    processPDFWithTextExtraction idRender (some []) =
      [createTextImage idRender emptyPdfText 1 1] ∧
    processPDFWithTextExtraction idRender (some (cs "   ")) =
      [createTextImage idRender (cs "   ") 1 1] :=
  ⟨(render_text_total idRender (some []) (cs "   ")).1 (by rfl),
   (render_text_total idRender (some []) (cs "   ")).2.1 (by decide) (by decide)⟩

/-! ### C9: the raster page encoder bounds -/

theorem fitInside_spec (w h maxW maxH : Nat) (hw : 0 < w) (hh : 0 < h)
    (hmw : 0 < maxW) (hmh : 0 < maxH) :
    (fitInside w h maxW maxH).1 ≤ maxW ∧ (fitInside w h maxW maxH).2 ≤ maxH ∧
    (fitInside w h maxW maxH).1 ≤ w ∧ (fitInside w h maxW maxH).2 ≤ h ∧
    (w ≤ maxW → h ≤ maxH → fitInside w h maxW maxH = (w, h)) := by
  unfold fitInside
  by_cases h1 : w ≤ maxW ∧ h ≤ maxH
  · rw [if_pos h1]
    exact ⟨h1.1, h1.2, Nat.le_refl w, Nat.le_refl h, fun _ _ => rfl⟩
  · rw [if_neg h1]
    by_cases h2 : w * maxH ≤ maxW * h
    · rw [if_pos h2]
      have hkey : maxH < h := by
        by_contra hc
        push_neg at hc
        have hw' : maxW < w := by
          rcases Decidable.not_and_iff_or_not.mp h1 with hx | hx
          · omega
          · omega
        have c1 : maxW * h ≤ maxW * maxH := mul_le_mul_left' hc maxW
        have c2 : maxW * maxH < w * maxH := mul_lt_mul_of_pos_right hw' hmh
        linarith
      have ha : w * maxH / h ≤ maxW := by
        have hd : w * maxH / h ≤ maxW * h / h := Nat.div_le_div_right h2
        rwa [Nat.mul_div_cancel maxW hh] at hd
      have hb : w * maxH / h ≤ w := by
        have hmul : w * maxH ≤ w * h := mul_le_mul_left' (Nat.le_of_lt hkey) w
        have hd : w * maxH / h ≤ w * h / h := Nat.div_le_div_right hmul
        rwa [Nat.mul_div_cancel w hh] at hd
      exact ⟨ha, Nat.le_refl maxH, hb, Nat.le_of_lt hkey,
        fun hwle hhle => absurd ⟨hwle, hhle⟩ h1⟩
    · rw [if_neg h2]
      push_neg at h2
      have hkey : maxW < w := by
        by_contra hc
        push_neg at hc
        have hh' : maxH < h := by
          rcases Decidable.not_and_iff_or_not.mp h1 with hx | hx
          · omega
          · omega
        have c1 : w * maxH ≤ maxW * maxH := mul_le_mul_right' hc maxH
        have c2 : maxW * maxH < maxW * h := mul_lt_mul_of_pos_left hh' hmw
        linarith
      have ha : h * maxW / w ≤ maxH := by
        have hmul : h * maxW ≤ w * maxH := by
          rw [Nat.mul_comm h maxW]
          exact Nat.le_of_lt h2
        have hd : h * maxW / w ≤ w * maxH / w := Nat.div_le_div_right hmul
        rwa [Nat.mul_div_cancel_left maxH hw] at hd
      have hb : h * maxW / w ≤ h := by
        have hmul : h * maxW ≤ h * w := mul_le_mul_left' (Nat.le_of_lt hkey) h
        have hd : h * maxW / w ≤ h * w / w := Nat.div_le_div_right hmul
        rwa [Nat.mul_div_cancel h hw] at hd
      exact ⟨Nat.le_refl maxW, ha, Nat.le_of_lt hkey, hb,
        fun hwle hhle => absurd ⟨hwle, hhle⟩ h1⟩

/-- C9: for every decodable raster input (positive pixel dimensions), the page
encoder's output dimensions never exceed the configured maxima (1024 by 1024
for uploaded images, 1024 by 1448 for rasterized pdf pages) and never exceed
the input dimensions; an input already within bounds is returned unchanged
(so it is never upscaled and its aspect ratio is untouched). -/
theorem encoder_bounds (w h : Nat) (hw : 0 < w) (hh : 0 < h) :
    ((processImageDims w h).1 ≤ 1024 ∧ (processImageDims w h).2 ≤ 1024 ∧
      (processImageDims w h).1 ≤ w ∧ (processImageDims w h).2 ≤ h ∧
      (w ≤ 1024 → h ≤ 1024 → processImageDims w h = (w, h))) ∧
    ((pdf2picPageDims w h).1 ≤ 1024 ∧ (pdf2picPageDims w h).2 ≤ 1448 ∧
      (pdf2picPageDims w h).1 ≤ w ∧ (pdf2picPageDims w h).2 ≤ h ∧
      (w ≤ 1024 → h ≤ 1448 → pdf2picPageDims w h = (w, h))) :=
  ⟨fitInside_spec w h 1024 1024 hw hh (by decide) (by decide),
   fitInside_spec w h 1024 1448 hw hh (by decide) (by decide)⟩

/-- Witness for C9 at the oversized input 2000 by 100 (downscaled within both
bounds) and the in-bounds input 800 by 600 (returned unchanged). -/
theorem encoder_bounds_witness :
    (processImageDims 2000 100).1 ≤ 1024 ∧ (processImageDims 2000 100).2 ≤ 100 ∧
    (pdf2picPageDims 2000 100).1 ≤ 1024 ∧ (pdf2picPageDims 2000 100).2 ≤ 100 ∧
    processImageDims 800 600 = (800, 600) :=
  ⟨(encoder_bounds 2000 100 (by decide) (by decide)).1.1,
   (encoder_bounds 2000 100 (by decide) (by decide)).1.2.2.2.1,
   (encoder_bounds 2000 100 (by decide) (by decide)).2.1,
   (encoder_bounds 2000 100 (by decide) (by decide)).2.2.2.2.1,
   (encoder_bounds 800 600 (by decide) (by decide)).1.2.2.2.2 (by decide) (by decide)⟩

end CourseChecker
